import Mathlib

/-!
Shallow embedding of the part / category / BOM model of
`src/InvenTree/part/models.py`, together with theorems checking the
natural-language specification against it.

The database-backed object graph is embedded as an explicit state value
(`DB`): Django reverse foreign-key lookups (`self.parts.all()`,
`self.bom_items.all()`, `self.locations.all()`, `self.builds.all()`,
`self.used_in.all()`, `self.children.all()`) become list filters over that
state, keyed by integer ids. Python integers are `Nat`/`Int`; code paths
that can raise become `Except`.
-/

/-- A stock ledger entry (external `StockItem`): owning part, quantity and
the in-stock flag. Read via `Part.stock_entries` in the source. -/
structure StockEntry where
  part : Nat
  quantity : Nat
  in_stock : Bool
deriving DecidableEq

/-- An external `Build` record: the part being built, the build quantity
and its active flag (`b.is_active` in the source: not complete and not
cancelled). -/
structure Build where
  part : Nat
  quantity : Nat
  is_active : Bool
deriving DecidableEq

/-- `Part` model (the fields the graph/quantity engine reads).
Defaults mirror the Django field defaults. -/
structure PartRecord where
  id : Nat := 0
  name : String := ""
  description : String := ""
  IPN : String := ""
  category : Option Nat := none
  minimum_stock : Nat := 0
  units : String := "pcs"
  buildable : Bool := false
  consumable : Bool := true
  trackable : Bool := false
  purchaseable : Bool := true
  salable : Bool := false
  notes : String := ""
deriving DecidableEq

/-- `PartCategory` model: id, name, optional parent category id. -/
structure PartCategory where
  id : Nat := 0
  name : String := ""
  parent : Option Nat := none
deriving DecidableEq

/-- `BomItem` model: a BOM edge `(part, sub_part)` with quantity and note. -/
structure BomItem where
  part : Nat
  sub_part : Nat
  quantity : Nat
  note : String := ""
deriving DecidableEq

/-- The database state the model code runs against. -/
structure DB where
  categories : List PartCategory := []
  parts : List PartRecord := []
  bom : List BomItem := []
  stock : List StockEntry := []
  builds : List Build := []
deriving DecidableEq

/-- Lookup a part record by id. -/
def get_part (db : DB) (i : Nat) : Option PartRecord :=
  db.parts.find? (fun p => p.id == i)

/-- Lookup a category record by id. -/
def get_category (db : DB) (i : Nat) : Option PartCategory :=
  db.categories.find? (fun k => k.id == i)

/-- `str(part)`: the source renders a part as `"{n} - {d}"` from its name
and description (`Part.__str__`). -/
def part_str (db : DB) (i : Nat) : String :=
  match get_part db i with
  | some p => p.name ++ " - " ++ p.description
  | none => ""

/-- `self.bom_items.all()`: the BOM edges whose parent part is `p`. -/
def bom_items (db : DB) (p : Nat) : List BomItem :=
  db.bom.filter (fun e => e.part == p)

/-- `self.used_in.all()`: the BOM edges whose sub-part is `p`. -/
def used_in (db : DB) (p : Nat) : List BomItem :=
  db.bom.filter (fun e => e.sub_part == p)

/-- `Part.bom_count`: number of direct BOM edges. -/
def bom_count (db : DB) (p : Nat) : Nat :=
  (bom_items db p).length

/-- `Part.has_bom`: `bom_count > 0`. -/
def has_bom (db : DB) (p : Nat) : Bool :=
  decide (0 < bom_count db p)

/-- `Part.used_in_count`: number of edges in which `p` is the sub-part. -/
def used_in_count (db : DB) (p : Nat) : Nat :=
  (used_in db p).length

/-- `Part.stock_entries`: the part's ledger entries whose in-stock flag is
set (`[loc for loc in self.locations.all() if loc.in_stock]`). -/
def stock_entries (db : DB) (p : Nat) : List StockEntry :=
  (db.stock.filter (fun e => e.part == p)).filter (fun e => e.in_stock)

/-- `Part.total_stock`: sum of the quantities of the in-stock entries. -/
def total_stock (db : DB) (p : Nat) : Nat :=
  ((stock_entries db p).map (fun e => e.quantity)).sum

/-- `Part.active_builds`: builds of this part whose active flag is set
(`[b for b in self.builds.all() if b.is_active]`). -/
def active_builds (db : DB) (p : Nat) : List Build :=
  (db.builds.filter (fun b => b.part == p)).filter (fun b => b.is_active)

/-- One entry of `Part.build_allocation`: the dict `\x7bbuild, quantity\x7d`
appended by the source loop. -/
structure Allocation where
  build : Build
  quantity : Nat
deriving DecidableEq

/-- `Part.build_allocation`: for every edge in which `p` is the sub-part,
for every active build of that edge's parent part, one entry with
`quantity = item.quantity * build.quantity`. -/
def build_allocation (db : DB) (p : Nat) : List Allocation :=
  (used_in db p).flatMap (fun item =>
    (active_builds db item.part).map (fun b =>
      { build := b, quantity := item.quantity * b.quantity }))

/-- `Part.allocated_build_count`: sum of the quantities of
`build_allocation`. -/
def allocated_build_count (db : DB) (p : Nat) : Nat :=
  ((build_allocation db p).map (fun a => a.quantity)).sum

/-- `Part.allocation_count`: the source sums the singleton list
`[self.allocated_build_count]`. -/
def allocation_count (db : DB) (p : Nat) : Nat :=
  ([allocated_build_count db p]).sum

/-- `Part.available_stock`: `max(total_stock - allocation_count, 0)`.
Computed over `Int` since the Python subtraction may go negative before
the clamp. -/
def available_stock (db : DB) (p : Nat) : Int :=
  max ((total_stock db p : Int) - (allocation_count db p : Int)) 0

/-- Errors the Python read path can raise while computing `can_build`. -/
inductive PyError where
  | zeroDivision
  | typeMismatch
deriving DecidableEq

/-- The loop body of `Part.can_build`: fold over the BOM edges carrying the
running minimum (`total`, initially `None`); each step computes
`n = int(1.0 * stock / item.quantity)` — raising a division-by-zero error
when `item.quantity = 0` — and keeps `n` when `total is None or n < total`. -/
def can_build_loop (db : DB) : List BomItem → Option Int → Except PyError (Option Int)
  | [], total => .ok total
  | item :: rest, total =>
    if item.quantity = 0 then .error .zeroDivision
    else
      let stock := available_stock db item.sub_part
      let n : Int := stock / (item.quantity : Int)
      match total with
      | none => can_build_loop db rest (some n)
      | some t => can_build_loop db rest (some (if n < t then n else t))

/-- `Part.can_build`: available stock when the part has no BOM, otherwise
`max(total, 0)` where `total` is the loop's running minimum. The
`.ok none` case (Python `max(None, 0)`, a type error) is unreachable under
the `has_bom` guard. -/
def can_build (db : DB) (p : Nat) : Except PyError Int :=
  if has_bom db p = false then .ok (available_stock db p)
  else
    match can_build_loop db (bom_items db p) none with
    | .error e => .error e
    | .ok none => .error .typeMismatch
    | .ok (some total) => .ok (max total 0)

/-- `self.parts.all()` on a category: the parts directly owned by it. -/
def direct_parts (db : DB) (c : Nat) : List PartRecord :=
  db.parts.filter (fun p => p.category == some c)

/-- `self.children.all()` on a category: its direct child categories. -/
def child_categories (db : DB) (c : Nat) : List PartCategory :=
  db.categories.filter (fun k => k.parent == some c)

/-- `PartCategory.has_parts`: directly-owned part count is positive. -/
def has_parts (db : DB) (c : Nat) : Bool :=
  decide (0 < (direct_parts db c).length)

/-- `PartCategory.partcount` run with an explicit recursion budget: the
source recursion is `count = self.parts.count()` plus the recursive
`partcount` of every child category, with no visited-set or depth cap.
`none` means the budget was exhausted; `partcount_fuel db fuel c = none`
for every `fuel` means the source recursion never returns on state `db`. -/
def partcount_fuel (db : DB) : Nat → Nat → Option Nat
  | 0, _ => none
  | fuel + 1, c =>
    (child_categories db c).foldl
      (fun acc child =>
        match acc, partcount_fuel db fuel child.id with
        | some n, some m => some (n + m)
        | _, _ => none)
      (some (direct_parts db c).length)

/-- The source `partcount` recursion never returns a value on state `db`
starting from category `c`, no matter how much recursion budget it gets. -/
def partcount_diverges (db : DB) (c : Nat) : Prop :=
  ∀ fuel, partcount_fuel db fuel c = none

/-- `instance.parent` for a category id: the parent id of its record. -/
def category_parent (db : DB) (c : Nat) : Option Nat :=
  match get_category db c with
  | some k => k.parent
  | none => none

/-- The `pre_delete` hook `before_delete_part_category`: every part directly
owned by the category is repointed at `instance.parent`, and every direct
child category is reparented to `instance.parent`. -/
def before_delete_part_category (db : DB) (c : Nat) : DB :=
  let parent := category_parent db c
  { db with
    parts := db.parts.map (fun p =>
      if p.category == some c then { p with category := parent } else p),
    categories := db.categories.map (fun k =>
      if k.parent == some c then { k with parent := parent } else k) }

/-- The validation errors of the BOM edge insertion path. `recursive`
carries `str(self.part)` and `str(self.sub_part)` in that order, exactly
the two values interpolated into the source message
`"Part ... is used in BOM for ... (recursive)"`. -/
inductive ValidationError where
  | selfReference
  | recursive (p1 p2 : String)
  | duplicate
  | invalidChoice
deriving DecidableEq

/-- `BomItem.clean`: reject a self-referential edge, then walk the
sub-part's own BOM and reject (naming both parts) if the new parent part
already appears there as a sub-part. -/
def clean (db : DB) (part sub_part : Nat) : Except ValidationError Unit :=
  if part == sub_part then .error .selfReference
  else if (bom_items db sub_part).any (fun item => part == item.sub_part) then
    .error (.recursive (part_str db part) (part_str db sub_part))
  else .ok ()

/-- The `unique_together = ('part', 'sub_part')` constraint, checked before
an insert persists. -/
def validate_unique (db : DB) (part sub_part : Nat) : Except ValidationError Unit :=
  if db.bom.any (fun e => e.part == part && e.sub_part == sub_part) then
    .error .duplicate
  else .ok ()

/-- Model-level BOM edge insertion: run `BomItem.clean`, then the
uniqueness constraint, then persist the new edge. On any validation error
the state is not returned, so nothing is persisted. -/
def add_edge (db : DB) (part sub_part quantity : Nat) (note : String) :
    Except ValidationError DB := do
  clean db part sub_part
  validate_unique db part sub_part
  .ok { db with bom := db.bom ++ [{ part := part, sub_part := sub_part,
                                    quantity := quantity, note := note }] }

/-- The `limit_choices_to` constraints on the two foreign keys of
`BomItem`: the parent part must have `buildable = True` and the sub-part
must have `consumable = True`. Django enforces these as form-level choice
validation when an edge is inserted. -/
def form_check (db : DB) (part sub_part : Nat) : Bool :=
  (match get_part db part with
   | some p => p.buildable
   | none => false) &&
  (match get_part db sub_part with
   | some s => s.consumable
   | none => false)

/-- BOM edge insertion through the form layer: the `limit_choices_to`
checks run first (rejecting an invalid choice), then the model-level
validation and insert. -/
def add_edge_form (db : DB) (part sub_part quantity : Nat) (note : String) :
    Except ValidationError DB :=
  if form_check db part sub_part then add_edge db part sub_part quantity note
  else .error .invalidChoice

/-- Concrete state for the buildability scenario: `Widget` (id 0) has BOM
edges to `Screw` (id 1, qty 4) and `Bracket` (id 2, qty 1); `Screw` has 40
in stock, `Bracket` has 3, and there are no builds. -/
def widgetDB : DB :=
  { parts := [{ id := 0, name := "Widget", buildable := true },
              { id := 1, name := "Screw" },
              { id := 2, name := "Bracket" }],
    bom := [{ part := 0, sub_part := 1, quantity := 4 },
            { part := 0, sub_part := 2, quantity := 1 }],
    stock := [{ part := 1, quantity := 40, in_stock := true },
              { part := 2, quantity := 3, in_stock := true }] }

/-- Concrete state for the reverse-edge scenario: an edge from `Bolt`
(id 0) to `Nut` (id 1) already exists. -/
def boltDB : DB :=
  { parts := [{ id := 0, name := "Bolt", description := "steel bolt",
                buildable := true },
              { id := 1, name := "Nut", description := "hex nut",
                buildable := true }],
    bom := [{ part := 0, sub_part := 1, quantity := 2 }] }

/-- Concrete state for the three-level cycle scenario: parts 0, 1, 2 (all
buildable and consumable) with edges (0,1) and (1,2) already present. -/
def cycleDB : DB :=
  { parts := [{ id := 0, name := "A", buildable := true },
              { id := 1, name := "B", buildable := true },
              { id := 2, name := "C", buildable := true }],
    bom := [{ part := 0, sub_part := 1, quantity := 1 },
            { part := 1, sub_part := 2, quantity := 1 }] }

/-- Concrete state for the category deletion scenario: root `R` (id 0),
category `C` (id 1) under `R`, child `D` (id 2) under `C`, and part `X`
(id 7) owned by `C`. -/
def categoryDB : DB :=
  { categories := [{ id := 0, name := "R" },
                   { id := 1, name := "C", parent := some 0 },
                   { id := 2, name := "D", parent := some 1 }],
    parts := [{ id := 7, name := "X", category := some 1 }] }

/-- Corrupted category state: categories 1 and 2 are each other's parent,
a two-node cycle violating the forest invariant. -/
def corruptDB : DB :=
  { categories := [{ id := 1, name := "C", parent := some 2 },
                   { id := 2, name := "D", parent := some 1 }] }

/-- Concrete state with a zero-quantity BOM edge: part 0 has edges to
part 1 (qty 0) and part 2 (qty 2), and part 2 has 10 in stock. -/
def zeroQtyDB : DB :=
  { parts := [{ id := 0, name := "P", buildable := true },
              { id := 1, name := "Q" },
              { id := 2, name := "S" }],
    bom := [{ part := 0, sub_part := 1, quantity := 0 },
            { part := 0, sub_part := 2, quantity := 2 }],
    stock := [{ part := 2, quantity := 10, in_stock := true }] }

/-- Concrete state for the role-flag scenario: part 0 is not buildable,
part 1 is consumable. -/
def flagDB : DB :=
  { parts := [{ id := 0, name := "NotBuildable", buildable := false },
              { id := 1, name := "Component" }] }

/-- C2 test: available stock is the clamped difference of total stock and
the allocation count, and is never negative. -/
theorem available_stock_clamped (db : DB) (p : Nat) :
    available_stock db p
        = max ((total_stock db p : Int) - (allocation_count db p : Int)) 0
      ∧ 0 ≤ available_stock db p := by
  refine ⟨rfl, ?_⟩
  exact le_max_right _ _

/-- C10 test: available stock never exceeds total stock, and is never
negative: `totalStock ≥ availableStock ≥ 0` in every state. -/
theorem available_stock_le_total (db : DB) (p : Nat) :
    available_stock db p ≤ (total_stock db p : Int)
      ∧ 0 ≤ available_stock db p := by
  constructor
  · apply max_le
    · have h : (0 : Int) ≤ (allocation_count db p : Int) := Int.ofNat_nonneg _
      omega
    · exact Int.ofNat_nonneg _
  · exact le_max_right _ _

/-- C4 test: with edges (0,1) and (1,2) present, inserting the closing
edge (2,0) of a three-level cycle passes every validation check and is
persisted: the one-hop check in `BomItem.clean` only inspects the
sub-part's direct BOM. -/
theorem three_cycle_not_rejected :
    add_edge_form cycleDB 2 0 1 ""
      = .ok { cycleDB with
              bom := cycleDB.bom ++ [{ part := 2, sub_part := 0, quantity := 1 }] } := by
  rfl

/-- C8 test: evaluating `can_build` on a part whose BOM contains a
zero-quantity edge raises a division-by-zero error instead of skipping
that edge. -/
theorem can_build_zero_quantity_raises :
    can_build zeroQtyDB 0 = .error .zeroDivision := by
  rfl

theorem corrupt_partcount_aux :
    ∀ fuel, partcount_fuel corruptDB fuel 1 = none
            ∧ partcount_fuel corruptDB fuel 2 = none := by
  intro fuel
  induction fuel with
  | zero => exact ⟨rfl, rfl⟩
  | succ n ih =>
    have h1 := ih.1
    have h2 := ih.2
    constructor
    · show (child_categories corruptDB 1).foldl
          (fun acc child =>
            match acc, partcount_fuel corruptDB n child.id with
            | some a, some b => some (a + b)
            | _, _ => none)
          (some (direct_parts corruptDB 1).length) = none
      rw [show child_categories corruptDB 1
            = [{ id := 2, name := "D", parent := some 1 }] from rfl]
      simp [h2]
    · show (child_categories corruptDB 2).foldl
          (fun acc child =>
            match acc, partcount_fuel corruptDB n child.id with
            | some a, some b => some (a + b)
            | _, _ => none)
          (some (direct_parts corruptDB 2).length) = none
      rw [show child_categories corruptDB 2
            = [{ id := 1, name := "C", parent := some 2 }] from rfl]
      simp [h1]

/-- C6 test: on the corrupted two-node category cycle, the source
`partcount` recursion never produces any value (and in particular never a
`StructuralCorruption` error): for every recursion budget it just runs
out. -/
theorem partcount_cycle_diverges : partcount_diverges corruptDB 1 :=
  fun fuel => (corrupt_partcount_aux fuel).1

/-- C3 test: if an edge (A, B) already exists, inserting the reverse edge
(B, A) fails `BomItem.clean` with the recursive-BOM error carrying the
rendered names of both parts, so no edge is persisted (no state is
returned). -/
theorem add_edge_reverse_rejected (db : DB) (A B q : Nat) (note : String)
    (hne : A ≠ B) (he : ∃ e ∈ db.bom, e.part = A ∧ e.sub_part = B) :
    add_edge db B A q note
      = .error (.recursive (part_str db B) (part_str db A)) := by
  obtain ⟨e, hmem, hpart, hsub⟩ := he
  have hBA : (B == A) = false := beq_eq_false_iff_ne.mpr (Ne.symm hne)
  have hany : ((bom_items db A).any fun item => B == item.sub_part) = true := by
    refine List.any_eq_true.mpr ⟨e, List.mem_filter.mpr ⟨hmem, ?_⟩, ?_⟩
    · simp [hpart]
    · simp [hsub]
  have hclean : clean db B A
      = .error (.recursive (part_str db B) (part_str db A)) := by
    simp [clean, hBA, hany]
  unfold add_edge
  rw [hclean]
  rfl

theorem add_edge_reverse_rejected_witness :
    add_edge boltDB 1 0 2 "x"
      = .error (.recursive "Nut - hex nut" "Bolt - steel bolt") := by
  have h := add_edge_reverse_rejected boltDB 0 1 2 "x" (by decide)
    ⟨{ part := 0, sub_part := 1, quantity := 2 }, by decide, rfl, rfl⟩
  rw [h]
  rfl

/-- C9 test: the `limit_choices_to` role-flag validation on BOM edge
insertion rejects any edge whose parent part is not buildable or whose
sub-part is not consumable. -/
theorem add_edge_form_flag_rejected (db : DB) (part sub_part q : Nat)
    (note : String)
    (h : (∃ p, get_part db part = some p ∧ p.buildable = false) ∨
         (∃ s, get_part db sub_part = some s ∧ s.consumable = false)) :
    add_edge_form db part sub_part q note = .error .invalidChoice := by
  have hfc : form_check db part sub_part = false := by
    rcases h with ⟨p, hp, hb⟩ | ⟨s, hs, hc⟩
    · simp [form_check, hp, hb]
    · simp [form_check, hs, hc]
  simp [add_edge_form, hfc]

theorem add_edge_form_flag_rejected_witness :
    add_edge_form flagDB 0 1 1 "" = .error .invalidChoice :=
  add_edge_form_flag_rejected flagDB 0 1 1 ""
    (Or.inl ⟨{ id := 0, name := "NotBuildable", buildable := false },
             rfl, rfl⟩)

/-- C5 test: deleting category `c` (whose record has parent `k.parent`,
with no self-parent corruption) repoints every part directly owned by `c`
at `k.parent`, reparents every child category of `c` to `k.parent`, and
afterwards no part or category still references `c`. -/
theorem before_delete_reassigns (db : DB) (c : Nat) (k : PartCategory)
    (hk : get_category db c = some k) (hkc : k.parent ≠ some c) :
    (∀ p ∈ db.parts, p.category = some c →
        ({ p with category := k.parent } : PartRecord)
          ∈ (before_delete_part_category db c).parts) ∧
    (∀ d ∈ db.categories, d.parent = some c →
        ({ d with parent := k.parent } : PartCategory)
          ∈ (before_delete_part_category db c).categories) ∧
    (∀ p ∈ (before_delete_part_category db c).parts, p.category ≠ some c) ∧
    (∀ d ∈ (before_delete_part_category db c).categories, d.parent ≠ some c) := by
  have hcp : category_parent db c = k.parent := by
    simp [category_parent, hk]
  refine ⟨?_, ?_, ?_, ?_⟩
  · intro p hp hpc
    simp only [before_delete_part_category, hcp]
    refine List.mem_map.mpr ⟨p, hp, ?_⟩
    simp [hpc]
  · intro d hd hdc
    simp only [before_delete_part_category, hcp]
    refine List.mem_map.mpr ⟨d, hd, ?_⟩
    simp [hdc]
  · intro p hp
    simp only [before_delete_part_category, hcp] at hp
    obtain ⟨q, hq, rfl⟩ := List.mem_map.mp hp
    by_cases h : q.category = some c
    · simp [h, hkc]
    · simp [h]
  · intro d hd
    simp only [before_delete_part_category, hcp] at hd
    obtain ⟨q, hq, rfl⟩ := List.mem_map.mp hd
    by_cases h : q.parent = some c
    · simp [h, hkc]
    · simp [h]

theorem before_delete_reassigns_witness :
    ({ id := 7, name := "X", category := some 0 } : PartRecord)
        ∈ (before_delete_part_category categoryDB 1).parts
      ∧ ({ id := 2, name := "D", parent := some 0 } : PartCategory)
          ∈ (before_delete_part_category categoryDB 1).categories := by
  constructor
  · exact (before_delete_reassigns categoryDB 1
        { id := 1, name := "C", parent := some 0 } rfl (by decide)).1
      { id := 7, name := "X", category := some 1 } (by decide) rfl
  · exact (before_delete_reassigns categoryDB 1
        { id := 1, name := "C", parent := some 0 } rfl (by decide)).2.1
      { id := 2, name := "D", parent := some 1 } (by decide) rfl

theorem length_flatMap_eq_sum {α β : Type} (l : List α) (g : α → List β) :
    (l.flatMap g).length = (l.map (fun a => (g a).length)).sum := by
  induction l with
  | nil => rfl
  | cons a t ih => simp [ih]

theorem sum_map_flatMap {α β : Type} (l : List α) (g : α → List β)
    (q : β → Nat) :
    ((l.flatMap g).map q).sum = (l.map (fun a => ((g a).map q).sum)).sum := by
  induction l with
  | nil => rfl
  | cons a t ih => simp [ih]

/-- C7 test: `build_allocation` contains one entry of quantity
`edge.quantity * build.quantity` for every used-in edge and active build
of that edge's parent part — membership plus an exact count — and
`allocated_build_count` is the sum of those quantities. -/
theorem build_allocation_spec (db : DB) (p : Nat) :
    (∀ e ∈ used_in db p, ∀ b ∈ active_builds db e.part,
        ({ build := b, quantity := e.quantity * b.quantity } : Allocation)
          ∈ build_allocation db p)
      ∧ (build_allocation db p).length
          = ((used_in db p).map
              (fun e => (active_builds db e.part).length)).sum
      ∧ allocated_build_count db p
          = ((used_in db p).map
              (fun e => ((active_builds db e.part).map
                (fun b => e.quantity * b.quantity)).sum)).sum := by
  refine ⟨?_, ?_, ?_⟩
  · intro e he b hb
    exact List.mem_flatMap.mpr ⟨e, he, List.mem_map_of_mem _ hb⟩
  · rw [build_allocation, length_flatMap_eq_sum]
    simp
  · rw [allocated_build_count, build_allocation, sum_map_flatMap]
    simp only [List.map_map]
    rfl

theorem run_min_eq (n t : Int) : (if n < t then n else t) = min t n := by
  rcases lt_or_ge n t with h | h
  · rw [if_pos h, min_eq_right h.le]
  · rw [if_neg (not_lt.mpr h), min_eq_left h]

theorem can_build_loop_some (db : DB) :
    ∀ (items : List BomItem) (t : Int),
      (∀ it ∈ items, 0 < it.quantity) →
      can_build_loop db items (some t)
        = .ok (some (items.foldl
            (fun acc it =>
              min acc (available_stock db it.sub_part / (it.quantity : Int)))
            t))
  | [], _, _ => rfl
  | i :: rest, t, h => by
    have hq : ¬ i.quantity = 0 :=
      Nat.pos_iff_ne_zero.mp (h i (by simp))
    have hrest : ∀ it ∈ rest, 0 < it.quantity :=
      fun it hit => h it (by simp [hit])
    have h1 : can_build_loop db (i :: rest) (some t)
        = can_build_loop db rest
            (some (if available_stock db i.sub_part / (i.quantity : Int) < t
                   then available_stock db i.sub_part / (i.quantity : Int)
                   else t)) := by
      simp only [can_build_loop]
      rw [if_neg hq]
    rw [h1, run_min_eq, can_build_loop_some db rest _ hrest]
    simp

theorem can_build_loop_start (db : DB) (i : BomItem) (rest : List BomItem)
    (h : ∀ it ∈ i :: rest, 0 < it.quantity) :
    can_build_loop db (i :: rest) none
      = .ok (some (rest.foldl
          (fun acc it =>
            min acc (available_stock db it.sub_part / (it.quantity : Int)))
          (available_stock db i.sub_part / (i.quantity : Int)))) := by
  have hq : ¬ i.quantity = 0 :=
    Nat.pos_iff_ne_zero.mp (h i (by simp))
  have hrest : ∀ it ∈ rest, 0 < it.quantity :=
    fun it hit => h it (by simp [hit])
  have h1 : can_build_loop db (i :: rest) none
      = can_build_loop db rest
          (some (available_stock db i.sub_part / (i.quantity : Int))) := by
    simp only [can_build_loop]
    rw [if_neg hq]
  rw [h1, can_build_loop_some db rest _ hrest]

/-- C1 test: when every BOM edge has a positive quantity, `can_build`
returns the available stock if the part has no BOM edges, and otherwise
the minimum over all direct edges of
`floor(availableStock(sub_part) / edge.quantity)`, floored at 0. -/
theorem can_build_min_spec (db : DB) (p : Nat)
    (hq : ∀ it ∈ bom_items db p, 0 < it.quantity) :
    (has_bom db p = false → can_build db p = .ok (available_stock db p))
      ∧ (∀ m, ((bom_items db p).map
            (fun it => available_stock db it.sub_part / (it.quantity : Int))).min?
              = some m →
          can_build db p = .ok (max m 0)) := by
  constructor
  · intro h
    simp [can_build, h]
  · intro m hm
    rcases hl : bom_items db p with _ | ⟨i, rest⟩
    · rw [hl] at hm
      simp at hm
    · have hbom : has_bom db p = true := by
        simp [has_bom, bom_count, hl]
      have hq' : ∀ it ∈ i :: rest, 0 < it.quantity := by
        rw [← hl]
        exact hq
      have hloop := can_build_loop_start db i rest hq'
      have hmin : m = rest.foldl
          (fun acc it =>
            min acc (available_stock db it.sub_part / (it.quantity : Int)))
          (available_stock db i.sub_part / (i.quantity : Int)) := by
        rw [hl, List.map_cons] at hm
        rw [show ((fun it => available_stock db it.sub_part / (it.quantity : Int)) i
                :: rest.map (fun it => available_stock db it.sub_part / (it.quantity : Int))).min?
              = some ((rest.map
                  (fun it => available_stock db it.sub_part / (it.quantity : Int))).foldl
                    min
                    (available_stock db i.sub_part / (i.quantity : Int)))
            from rfl] at hm
        rw [List.foldl_map] at hm
        exact (Option.some.inj hm).symm
    
      unfold can_build
      rw [if_neg (by simp [hbom]), hl, hloop, hmin]

theorem can_build_min_spec_witness : can_build widgetDB 0 = .ok 3 := by
  have h := (can_build_min_spec widgetDB 0 (by decide)).2 3 (by decide)
  rw [h]
  norm_num
